import Mathlib

/-!
Verification of the CropAdv farming-advice backend against its
natural-language specification.

The development shallowly embeds the parts of the program that the claims
are about:

* the prediction normalizer and history aggregator of the dashboard
  pipeline (the component that reconciles the four historical storage
  shapes of crop-prediction records);
* the AI-context quality scorer and context builders of
  `app/services/firebase_service.py` and `app/api/chat.py`;
* the user-context formatting of `app/services/ai_service.py`;
* the session-title synthesizer and title-update guard of
  `app/services/ai_service.py` and `app/services/chat_service.py`;
* the profile-completion check of `app/services/firebase_service.py`.

Untyped Python/JSON data is embedded as the inductive type `Value`.
Python numbers are embedded as rationals, machine floats are not modelled
(none of the claims depends on float rounding).  Code that can raise is
embedded in `Except String`; code that treats malformed data as "absent"
is embedded with `Option`.
-/

/-- A JSON-like dynamic value: the shape of records in the document store
and of the untyped dictionaries the Python code passes around.
Dictionaries are association lists with the insertion order of keys. -/
inductive Value where
  | vNull : Value
  | vBool : Bool → Value
  | vNum : ℚ → Value
  | vStr : String → Value
  | vList : List Value → Value
  | vDict : List (String × Value) → Value

/-- Python truthiness: `None`, `False`, `0`, `""`, `[]` and `{}` are falsy,
everything else is truthy. -/
def Value.truthy : Value → Bool
  | .vNull => false
  | .vBool b => b
  | .vNum q => decide (q ≠ 0)
  | .vStr s => decide (s ≠ "")
  | .vList xs => !xs.isEmpty
  | .vDict fs => !fs.isEmpty

/-- Whether a value is Python `None`. -/
def Value.isNull : Value → Bool
  | .vNull => true
  | _ => false

/-- Key lookup in a dictionary value; `none` when the receiver is not a
dictionary or the key is absent.  (Python `d[k]`/`d.get(k)` never sees a
duplicate key, so first-match lookup is exact.) -/
def Value.lookup? : Value → String → Option Value
  | .vDict fs, k => List.lookup k fs
  | _, _ => none

/-- `d.get(k, default)` on a value already known to be a dictionary. -/
def Value.getD (v : Value) (k : String) (d : Value) : Value :=
  (v.lookup? k).getD d

/-- The value of a string, `none` for every other shape. -/
def Value.asStr? : Value → Option String
  | .vStr s => some s
  | _ => none

/-- The value of a number, `none` for every other shape. -/
def Value.asNum? : Value → Option ℚ
  | .vNum q => some q
  | _ => none

/-- A *usable crop name*: a non-empty string.  Used by the normalizer
model; a value of any other shape (or the empty string, which is falsy in
both Python and JavaScript) is treated as "no extractable name here". -/
def nameOf? : Value → Option String
  | .vStr s => if s = "" then none else some s
  | _ => none

/-- Python `a or b` on values: `a` when truthy, else `b`. -/
def pyOr (a b : Value) : Value :=
  if a.truthy then a else b

/-! ## Prediction Normalizer (spec §4.1)

Modelled from the spec: the Prediction Normalizer that reconciles the four
historical storage shapes of crop-prediction records into
`{crop_name, confidence}` is part of the repository's dashboard front end,
which is not among the Python sources under `src/`; only the writers of
the four stored shapes (`app/api/crops.py`) and a partial backend
counterpart (`app/api/auth.py`, `get_dashboard_stats`) are.  The
definitions below follow the spec's resolution rules word by word. -/

/-- A normalized prediction: `{crop_name, confidence}` with the confidence
a decimal fraction. -/
structure NormalizedPrediction where
  crop_name : String
  confidence : ℚ
deriving DecidableEq

/-- Round a rational to 4 decimal places (round-half-up to the nearest
multiple of `1/10000`). -/
def roundTo4 (q : ℚ) : ℚ :=
  ((round (q * 10000) : ℤ) : ℚ) / 10000

/-- Modelled from the spec, resolution rule 1: "If a `recommendations`
list is present and non-empty, take its first entry's crop-name field and
confidence field (already a 0-100 percentage at rest in this shape)."
A first entry without a usable crop name is malformed, hence no match at
this step; a malformed confidence degrades to `0`. -/
def ruleRecommendations (r : Value) : Option (String × ℚ) :=
  match r.lookup? "recommendations" with
  | some (.vList (e :: _)) =>
    match (e.lookup? "crop_name").bind nameOf? with
    | some n => some (n, (((e.lookup? "confidence_score").bind Value.asNum?).getD 0))
    | none => none
  | _ => none

/-- Modelled from the spec, resolution rule 2: "Else if a `prediction`
field is present: if it is a mapping, try (in order) its `prediction`,
`crop_name`, then `crop` sub-fields for the name, and its `probability`
sub-field for a 0-100 confidence value; if it is a plain string, treat the
string itself as the crop name, confidence unknown (0)." -/
def rulePrediction (r : Value) : Option (String × ℚ) :=
  match r.lookup? "prediction" with
  | some (.vDict fs) =>
    match ((List.lookup "prediction" fs).bind nameOf?).orElse
        (fun _ => ((List.lookup "crop_name" fs).bind nameOf?).orElse
          (fun _ => (List.lookup "crop" fs).bind nameOf?)) with
    | some n => some (n, (((List.lookup "probability" fs).bind Value.asNum?).getD 0))
    | none => none
  | some (.vStr s) => if s = "" then none else some (s, 0)
  | _ => none

/-- Modelled from the spec, resolution rule 3: "Else if a top-level
`crop_name` field is present and truthy, use it."  No confidence source is
named by the spec for this shape, so the raw confidence is `0`. -/
def ruleCropName (r : Value) : Option (String × ℚ) :=
  match (r.lookup? "crop_name").bind nameOf? with
  | some n => some (n, 0)
  | none => none

/-- Modelled from the spec, resolution rule 4: "Else if an `input_data`
mapping contains a `crop` field, use it." -/
def ruleInputData (r : Value) : Option (String × ℚ) :=
  match r.lookup? "input_data" with
  | some (.vDict fs) =>
    match (List.lookup "crop" fs).bind nameOf? with
    | some n => some (n, 0)
    | none => none
  | _ => none

/-- The spec's resolution rules in their stated order. -/
def resolutionRules : List (Value → Option (String × ℚ)) :=
  [ruleRecommendations, rulePrediction, ruleCropName, ruleInputData]

/-- Modelled from the spec: the operational normalizer, written as the
chain of fallbacks the missing front-end code performs.  Returns the crop
name together with the *raw* (pre-division) confidence value. -/
def normalizeRaw (r : Value) : String × ℚ :=
  match ruleRecommendations r with
  | some x => x
  | none =>
    match rulePrediction r with
    | some x => x
    | none =>
      match ruleCropName r with
      | some x => x
      | none =>
        match ruleInputData r with
        | some x => x
        | none => ("Unknown", 0)

/-- Modelled from the spec: the full normalizer.  "Confidence is always
finally expressed as `raw_percentage / 100`, rounded to 4 decimal
places." -/
def normalizeRecord (r : Value) : NormalizedPrediction :=
  ⟨(normalizeRaw r).1, roundTo4 ((normalizeRaw r).2 / 100)⟩

/-- The spec-shaped formulation of the resolution order: apply the first
rule of `resolutionRules` that matches, else default to
`("Unknown", 0.0)`. -/
def specResolve (r : Value) : NormalizedPrediction :=
  match resolutionRules.findSome? (fun rule => rule r) with
  | some x => ⟨x.1, roundTo4 (x.2 / 100)⟩
  | none => ⟨"Unknown", 0⟩

/-! ## History Aggregator (spec §4.2)

Modelled from the spec: like the normalizer, the aggregator that computes
`total_count`, `top_crop`, `recent_unique_crops` and `last_prediction`
over a user's reverse-chronological prediction history lives in the
dashboard front end, not under `src/`. -/

/-- First-occurrence deduplication: keeps the first occurrence of every
name, in order of first appearance. -/
def dedupFirst : List String → List String
  | [] => []
  | n :: t => n :: dedupFirst (t.filter (fun m => m ≠ n))
termination_by l => l.length
decreasing_by
  simp only [List.length_cons, Nat.lt_succ_iff]
  exact List.length_filter_le _ _

/-- Modelled from the spec: "walk the normalized list once in order,
appending a name to `recent_unique_crops` the first time it is seen
(seen-set membership check), stopping collection once 3 are gathered".
`acc` is the list gathered so far. -/
def recentAux (acc : List String) : List String → List String
  | [] => acc
  | n :: ns =>
    if 3 ≤ acc.length then acc
    else if n ∈ acc then recentAux acc ns
    else recentAux (acc ++ [n]) ns

/-- The `recent_unique_crops` walk, started with an empty seen-list. -/
def recentUnique (ns : List String) : List String :=
  recentAux [] ns

/-- Modelled from the spec: the frequency table over names "for `top_crop`
(ties → first seen, i.e. most recent in the frequency table's insertion
order)".  Entries appear in first-occurrence order and carry the total
multiplicity of their name. -/
def freqTable : List String → List (String × Nat)
  | [] => []
  | n :: ns => (n, 1 + ns.count n) :: freqTable (ns.filter (fun m => m ≠ n))
termination_by l => l.length
decreasing_by
  simp only [List.length_cons, Nat.lt_succ_iff]
  exact List.length_filter_le _ _

/-- Choose between the current entry and the best of the remaining
entries: the later entry wins only with a strictly greater count, so ties
go to the earlier entry. -/
def pickBetter (a : String × Nat) : Option (String × Nat) → String × Nat
  | none => a
  | some b => if b.2 > a.2 then b else a

/-- Pick the entry with the maximal count, preferring the earlier entry on
ties (the earlier entry is the name first encountered, by the insertion
order of `freqTable`). -/
def pickTop : List (String × Nat) → Option (String × Nat)
  | [] => none
  | a :: t => some (pickBetter a (pickTop t))

/-- The aggregate the dashboard consumes (spec §6). -/
structure DashboardAggregate where
  total_count : Nat
  top_crop : Option String
  recent_unique_crops : List String
  last_prediction : Option (String × ℚ)

/-- The normalized crop names of a history, in input order. -/
def historyNames (history : List Value) : List String :=
  history.map (fun r => (normalizeRecord r).crop_name)

/-- The non-`"Unknown"` normalized crop names of a history. -/
def nonUnknownNames (history : List Value) : List String :=
  (historyNames history).filter (fun n => n ≠ "Unknown")

/-- Modelled from the spec: the History Aggregator.  Normalizes every
record, counts them all, takes the mode of the non-"Unknown" names for
`top_crop`, the first-occurrence walk for `recent_unique_crops`, and the
first record's name and confidence for `last_prediction`. -/
def aggregate (history : List Value) : DashboardAggregate :=
  { total_count := history.length
    top_crop := (pickTop (freqTable (nonUnknownNames history))).map Prod.fst
    recent_unique_crops := recentUnique (historyNames history)
    last_prediction :=
      (history.head?).map (fun r => ((normalizeRecord r).crop_name, (normalizeRecord r).confidence)) }

/-! ## Context Quality Scorer
(`app/services/firebase_service.py`, `get_ai_context_for_user`, lines 128-148)

The scorer walks six chained `dict.get` paths over the raw profile.  Each
intermediate Python step is `x.get(key, {})` and the final step is
`x.get(key)`; calling `.get` on a non-dictionary raises `AttributeError`,
which `get_ai_context_for_user` does not catch, so the embedding lives in
`Except String`. -/

/-- One chained Python `get` walk:
`v.get(k₁, {}).get(k₂, {}) ... .get(kₙ)` — every intermediate step
defaults to `{}`, the last step defaults to `None`, and any `.get` on a
non-dictionary raises. -/
def pyChain : Value → List String → Except String Value
  | v, [] => .ok v
  | v, [k] =>
    match v with
    | .vDict fs => .ok ((List.lookup k fs).getD .vNull)
    | _ => .error "AttributeError"
  | v, k :: k2 :: ks =>
    match v with
    | .vDict fs => pyChain ((List.lookup k fs).getD (.vDict [])) (k2 :: ks)
    | _ => .error "AttributeError"

/-- The raising-free counterpart of `pyChain`: the same walk, but a
non-dictionary intermediate yields `none` instead of raising.  Used to
state the checklist independently of the evaluation order. -/
def safeChain : Value → List String → Option Value
  | v, [] => some v
  | v, [k] =>
    match v with
    | .vDict fs => some ((List.lookup k fs).getD .vNull)
    | _ => none
  | v, k :: k2 :: ks =>
    match v with
    | .vDict fs => safeChain ((List.lookup k fs).getD (.vDict [])) (k2 :: ks)
    | _ => none

/-- Whether the fact at `path` is populated (present and truthy) in the
profile, navigating safely. -/
def factPresent (profile : Value) (path : List String) : Bool :=
  match safeChain profile path with
  | some v => v.truthy
  | none => false

/-- The scorer's fixed checklist: weight and `get` path of each scored
fact, in the order the source tests them. -/
def scoreChecklist : List (Nat × List String) :=
  [ (2, ["personal_info", "full_name"]),
    (2, ["farm_profile", "location", "state"]),
    (1, ["farm_profile", "farm_details", "total_area"]),
    (2, ["farm_profile", "soil_information", "primary_soil_type"]),
    (2, ["farming_profile", "primary_crops"]),
    (1, ["farming_profile", "experience_level"]) ]

/-- The spec-side additive checklist score: the sum of the weights of the
populated facts. -/
def checklistScore (profile : Value) : Nat :=
  (scoreChecklist.map
    (fun wp => if factPresent profile wp.2 then wp.1 else 0)).sum

/-- The result of `get_ai_context_for_user` that the claims are about. -/
structure AIContextScore where
  personalization_active : Bool
  context_quality_score : Nat
deriving DecidableEq

/-- `get_ai_context_for_user`, scoring part
(`app/services/firebase_service.py` lines 129-139): six sequential
`if profile.get(...)...get(...): score += w` steps, then
`quality_score = min(score, 10.0)` and
`personalization_active = quality_score > 4`. -/
def getAiContextScore (profile : Value) : Except String AIContextScore :=
  match pyChain profile ["personal_info", "full_name"] with
  | .error e => .error e
  | .ok v1 =>
    match pyChain profile ["farm_profile", "location", "state"] with
    | .error e => .error e
    | .ok v2 =>
      match pyChain profile ["farm_profile", "farm_details", "total_area"] with
      | .error e => .error e
      | .ok v3 =>
        match pyChain profile ["farm_profile", "soil_information", "primary_soil_type"] with
        | .error e => .error e
        | .ok v4 =>
          match pyChain profile ["farming_profile", "primary_crops"] with
          | .error e => .error e
          | .ok v5 =>
            match pyChain profile ["farming_profile", "experience_level"] with
            | .error e => .error e
            | .ok v6 =>
              let score :=
                (if v1.truthy then 2 else 0) + (if v2.truthy then 2 else 0) +
                (if v3.truthy then 1 else 0) + (if v4.truthy then 2 else 0) +
                (if v5.truthy then 2 else 0) + (if v6.truthy then 1 else 0)
              let quality := min score 10
              .ok ⟨decide (quality > 4), quality⟩

/-! ## Python string conversion

`str(x)` and f-string interpolation, as used by `_check_profile_completion`
and the context builders.  Numbers are embedded as rationals, so the
int/float distinction of Python (`str(3)` vs `str(3.0)`) collapses:
integral rationals render int-style, non-integral ones render with their
terminating decimal expansion (every number the code stores has one).
Container rendering keeps Python's bracket/comma layout but renders
elements with `str` rather than `repr` (no claim depends on quoting
inside containers, only on the rendered text being non-blank). -/

/-- Decimal rendering of a rational: int-style when integral, else the
terminating decimal expansion (falling back to `num/den` if none of
denominator `10^k`, `k < 18`, fits — unreachable for stored data). -/
def decStr (q : ℚ) : String :=
  let sign := if q < 0 then "-" else ""
  let a := |q|
  match (List.range 18).find? (fun k => (a * (10 : ℚ) ^ k).den = 1) with
  | some 0 => sign ++ toString a.num
  | some (k + 1) =>
    let m := (a * (10 : ℚ) ^ (k + 1)).num.toNat
    let ip := m / 10 ^ (k + 1)
    let fp := m % 10 ^ (k + 1)
    let fs := toString fp
    sign ++ toString ip ++ "." ++ String.mk (List.replicate (k + 1 - fs.length) '0') ++ fs
  | none => sign ++ toString a.num ++ "/" ++ toString a.den

mutual

/-- Python `str(x)` over embedded values. -/
def pyStr : Value → String
  | .vNull => "None"
  | .vBool true => "True"
  | .vBool false => "False"
  | .vNum q => decStr q
  | .vStr s => s
  | .vList xs => "[" ++ pyStrList xs ++ "]"
  | .vDict fs => "\x7b" ++ pyStrDict fs ++ "\x7d"

/-- Comma-separated rendering of list elements. -/
def pyStrList : List Value → String
  | [] => ""
  | [x] => pyStr x
  | x :: y :: xs => pyStr x ++ ", " ++ pyStrList (y :: xs)

/-- Comma-separated rendering of dictionary entries. -/
def pyStrDict : List (String × Value) → String
  | [] => ""
  | [(k, v)] => k ++ ": " ++ pyStr v
  | (k, v) :: f :: fs => k ++ ": " ++ pyStr v ++ ", " ++ pyStrDict (f :: fs)

end

/-- Python `x != 0` (note `False == 0` and `True == 1`); any non-number,
non-boolean differs from `0`. -/
def pyNe0 : Value → Bool
  | .vNum q => decide (q ≠ 0)
  | .vBool b => b
  | _ => true

/-! ## Profile Context Assembler paths

The two code paths that turn a stored profile into the `user_context`
handed to the AI service:

* the *flat/legacy* fallback of `app/api/chat.py`, `send_message`,
  lines 185-222 (used whenever no enhanced context is active);
* the *enhanced/nested* context of
  `app/services/firebase_service.py`, `get_ai_context_for_user`,
  lines 113-126;

and the two pieces of `app/services/ai_service.py`,
`_format_user_context` (lines 208-227), that extract the location and the
farm size from whichever context arrives. -/

/-- The fallback context builder of `chat.py` `send_message`
(lines 185-222).  A non-dictionary `user` is replaced by a stub; a truthy
non-dictionary `profile` makes the `try` block raise, which the
`except` branch converts into the minimal "No context available"
context. -/
def buildBasicContext (userId : String) (user : Value) : Value :=
  let u : Value :=
    match user with
    | .vDict _ => user
    | _ => .vDict [("uid", .vStr userId), ("display_name", .vStr "Farmer"),
        ("profile", .vDict [])]
  let profile := pyOr (u.getD "profile" (.vDict [])) (.vDict [])
  let attempt : Except String Value := do
    let uloc := u.getD "location" .vNull
    let location ←
      if uloc.truthy then pure uloc
      else if profile.truthy then
        match profile with
        | .vDict fs => pure ((List.lookup "farm_location" fs).getD .vNull)
        | _ => .error "AttributeError"
      else pure .vNull
    let fsVal ←
      if profile.truthy then
        match profile with
        | .vDict fs => pure ((List.lookup "farm_size" fs).getD .vNull)
        | _ => .error "AttributeError"
      else pure .vNull
    let farmSize : Value :=
      if profile.truthy ∧ fsVal.truthy ∧ pyNe0 fsVal then
        .vStr (pyStr fsVal ++ " acres")
      else .vNull
    let fexp ←
      if profile.truthy then
        match profile with
        | .vDict fs => pure ((List.lookup "farming_experience" fs).getD .vNull)
        | _ => .error "AttributeError"
      else pure (.vStr "Not specified")
    pure (.vDict [
      ("name", u.getD "display_name" (.vStr "Farmer")),
      ("location", pyOr location (.vStr "Not specified")),
      ("farm_size", pyOr farmSize (.vStr "Not specified")),
      ("farming_experience", fexp),
      ("personalization_note", .vStr "Basic profile - limited personalization available")])
  match attempt with
  | .ok ctx => ctx
  | .error _ => .vDict [("name", .vStr "Farmer"),
      ("personalization_note", .vStr "No context available - using generic responses")]

/-- The enhanced context dictionary built by `get_ai_context_for_user`
(`firebase_service.py` lines 113-126) from a stored profile dictionary:
seven nested sections passed through wholesale, with the legacy
`display_name` fallback for `personal_info`. -/
def buildEnhancedAiContext (userProfile : Value) : Value :=
  let get0 := fun k => userProfile.getD k (.vDict [])
  let personalInfo0 := get0 "personal_info"
  let personalInfo :=
    if !personalInfo0.truthy && (userProfile.getD "display_name" .vNull).truthy then
      Value.vDict [("full_name", userProfile.getD "display_name" .vNull)]
    else personalInfo0
  .vDict [
    ("personal_info", personalInfo),
    ("farm_profile", get0 "farm_profile"),
    ("farming_profile", get0 "farming_profile"),
    ("ai_personalization", get0 "ai_personalization"),
    ("communication_preferences", get0 "communication_preferences"),
    ("verification_status", get0 "verification_status"),
    ("metadata", get0 "metadata")]

/-- The location line `_format_user_context` contributes to the AI prompt
(`ai_service.py` lines 214-221): a top-level `location` that is a
dictionary with truthy `state` and `district` renders as
"Location: district, state, India"; a top-level string `location` renders
verbatim; anything else contributes nothing. -/
def formatLocationPart (ctx : Value) : Option String :=
  match ctx.getD "location" (.vDict []) with
  | .vDict fs =>
    let st := (List.lookup "state" fs).getD .vNull
    let di := (List.lookup "district" fs).getD .vNull
    if st.truthy && di.truthy then
      some ("Location: " ++ pyStr di ++ ", " ++ pyStr st ++ ", India")
    else none
  | .vStr s => some ("Location: " ++ s)
  | _ => none

/-- The farm-size line of `_format_user_context`
(`ai_service.py` lines 224-227): only a top-level `farm_details`
dictionary with a truthy `total_area` contributes one. -/
def formatFarmSizePart (ctx : Value) : Option String :=
  match ctx.getD "farm_details" (.vDict []) with
  | .vDict fs =>
    let ta := (List.lookup "total_area" fs).getD .vNull
    if ta.truthy then some ("Farm Size: " ++ pyStr ta ++ " acres") else none
  | _ => none

/-! ## String utilities

Character-list implementations of the Python string operations the title
synthesizer and the profile-completion check use (`strip`, `title`, `in`,
`startswith`, slicing, `lower`, `split`).  They are written structurally
so concrete inputs evaluate inside the kernel. -/

/-- Whether the first list is a prefix of the second. -/
def pfxAux : List Char → List Char → Bool
  | [], _ => true
  | _ :: _, [] => false
  | a :: as, b :: bs => a == b && pfxAux as bs

/-- Whether the first list occurs as a contiguous run inside the
second. -/
def subAux : List Char → List Char → Bool
  | pat, [] => pat.isEmpty
  | pat, c :: t' => pfxAux pat (c :: t') || subAux pat t'

/-- Python `pat in s` for non-degenerate `pat`. -/
def strContains (s pat : String) : Bool := subAux pat.data s.data

/-- Python `s.startswith(pat)`. -/
def strStarts (s pat : String) : Bool := pfxAux pat.data s.data

/-- Python `s.strip()` (whitespace; embedded via `Char.isWhitespace`,
which covers the whitespace the code ever stores). -/
def trimChars (s : String) : String :=
  String.mk (((s.data.dropWhile Char.isWhitespace).reverse.dropWhile
    Char.isWhitespace).reverse)

/-- Python `s.strip(c)` for a single strip character. -/
def stripCharStr (s : String) (c : Char) : String :=
  String.mk (((s.data.dropWhile (· == c)).reverse.dropWhile (· == c)).reverse)

/-- The character walk behind `str.title`: a letter after a non-letter is
uppercased, a letter after a letter is lowercased. -/
def titleAux : Bool → List Char → List Char
  | _, [] => []
  | prevAlpha, c :: t =>
    if c.isAlpha then
      (if prevAlpha then c.toLower else c.toUpper) :: titleAux true t
    else c :: titleAux false t

/-- Python `s.title()`. -/
def pyTitle (s : String) : String := String.mk (titleAux false s.data)

/-- Python `s[:n]` (slicing by characters). -/
def strTake (s : String) (n : Nat) : String := String.mk (s.data.take n)

/-- Python `s.lower()`. -/
def lowerStr (s : String) : String := String.mk (s.data.map Char.toLower)

/-- Accumulating walk behind `s.split()`: `cur` holds the reversed
characters of the word being read. -/
def wordsAux : List Char → List Char → List String
  | cur, [] => if cur.isEmpty then [] else [String.mk cur.reverse]
  | cur, c :: t =>
    if c.isWhitespace then
      if cur.isEmpty then wordsAux [] t
      else String.mk cur.reverse :: wordsAux [] t
    else wordsAux (c :: cur) t

/-- `len(s.split())`: the number of whitespace-separated words. -/
def wordCount (s : String) : Nat := (wordsAux [] s.data).length

/-! ## Session Title Synthesizer
(`app/services/ai_service.py`, `generate_session_title`, lines 437-525,
and `_extract_agricultural_keywords`, lines 527-545) -/

/-- Message roles of `app/models/chat_models.py`. -/
inductive MsgRole where
  | user : MsgRole
  | assistant : MsgRole
  | system : MsgRole
deriving DecidableEq

/-- A chat message as the title synthesizer consumes it. -/
structure ChatMessage where
  role : MsgRole
  content : String
deriving DecidableEq

/-- The fixed keyword vocabulary of `_extract_agricultural_keywords`. -/
def agriculturalTerms : List String :=
  ["wheat", "rice", "corn", "maize", "barley", "soybean", "cotton", "tomato",
   "potato", "carrot", "onion", "lettuce", "cabbage", "spinach", "bean",
   "fertilizer", "pesticide", "irrigation", "disease", "pest", "fungus",
   "soil", "ph", "nitrogen", "phosphorus", "potassium", "compost",
   "weather", "rain", "drought", "temperature", "humidity", "season",
   "planting", "harvest", "seed", "crop", "yield", "growth"]

/-- `_extract_agricultural_keywords`: the vocabulary terms occurring in
the text, in vocabulary order, first two only. -/
def extractAgriculturalKeywords (text : String) : List String :=
  (agriculturalTerms.filter (fun term => strContains text term)).take 2

/-- `" ".join(msg.content.lower() for user messages)`: the joined,
lowercased user-message text the fallback titles are mined from. -/
def lowerUserText (msgs : List ChatMessage) : String :=
  String.intercalate " "
    ((msgs.filter (fun m => m.role = .user)).map (fun m => lowerStr m.content))

/-- The condensed-transcript walk of `generate_session_title`
(lines 448-459): over the first six messages, keep user/assistant
messages with content truncated to 200 characters, stopping once four are
kept.  `cnt` counts the messages kept so far. -/
def collectCtx : Nat → List ChatMessage → List (MsgRole × String)
  | _, [] => []
  | cnt, m :: t =>
    if m.role = .user || m.role = .assistant then
      let entry := (m.role, strTake m.content 200)
      if 3 ≤ cnt then [entry] else entry :: collectCtx (cnt + 1) t
    else collectCtx cnt t

/-- The fixed instruction text of the title-generation prompt. -/
def titlePromptHeader : String :=
  "Based on the following conversation between a farmer and an agricultural AI assistant, generate a concise, descriptive title (2-4 words maximum) that captures the main topic or purpose of the conversation.\n\nGuidelines:\n- Focus on the primary agricultural topic (crops, diseases, fertilizers, weather, etc.)\n- Use farming/agricultural terminology when appropriate\n- Keep it short and clear (2-4 words)\n- Make it specific and helpful for identifying the conversation later\n\nExamples:\n- \"Wheat Disease Diagnosis\"\n- \"Fertilizer Recommendations\"\n- \"Soil pH Testing\"\n- \"Crop Irrigation Help\"\n- \"Pest Control Advice\"\n\nConversation:"

/-- The full prompt sent to the LLM collaborator for title generation
(lines 461-484). -/
def buildTitlePrompt (msgs : List ChatMessage) : String :=
  (collectCtx 0 (msgs.take 6)).foldl
    (fun acc e =>
      acc ++ "\n" ++ (if e.1 = .user then "Farmer" else "AI Assistant") ++ ": " ++ e.2)
    titlePromptHeader
  ++ "\n\nGenerate a title (2-4 words only, no quotes or extra text):"

/-- `generate_session_title` (lines 437-525).  `clientInit` embeds whether
the GROQ client was initialized; `llm` is the completion collaborator
(possibly raising).  The second component counts how many completion
requests were issued, so "without contacting the collaborator" is
expressible.  The cleanup strips quotes, title-cases, and falls back to
keyword titles on degenerate results or collaborator errors. -/
def generateSessionTitle (clientInit : Bool) (llm : String → Except String String)
    (msgs : List ChatMessage) : Except String String × Nat :=
  if !clientInit then
    (.error "GROQ client not initialized. Check your API key.", 0)
  else if msgs.isEmpty then
    (.ok "New Chat Session", 0)
  else
    match llm (buildTitlePrompt msgs) with
    | .ok content =>
      let t0 := trimChars content
      let t1 := pyTitle (trimChars (stripCharStr (stripCharStr t0 '"') (Char.ofNat 39)))
      let t2 :=
        if 50 < t1.length || 6 < wordCount t1 then
          match extractAgriculturalKeywords (lowerUserText msgs) with
          | kw :: _ => pyTitle kw ++ " Consultation"
          | [] => "Agricultural Consultation"
        else t1
      (.ok (if t2 = "" then "Chat Session" else t2), 1)
    | .error _ =>
      (.ok (match extractAgriculturalKeywords (lowerUserText msgs) with
        | kw :: _ => pyTitle kw ++ " Help"
        | [] => "Farm Consultation"), 1)

/-! ## Session title update guard
(`app/services/chat_service.py`, `generate_and_update_session_title`,
lines 225-258) -/

/-- The retained state of a chat session that the title-update operation
reads and writes: its title and its message count. -/
structure SessionState where
  title : String
  msgCount : Nat
deriving DecidableEq

/-- The overwrite condition of `generate_and_update_session_title`
(lines 235-238): the title is empty, contains `"Chat Session"`, or starts
with `"Chat Session"`. -/
def titleGuard (t : String) : Bool :=
  (t == "") || strContains t "Chat Session" || strStarts t "Chat Session"

/-- One invocation of `generate_and_update_session_title` on an existing
session, with `newTitle` the string produced by
`ai_service.generate_session_title`.  Returns the session state after the
call together with whether the title was overwritten (the function's
return value). -/
def updateSessionTitle (st : SessionState) (newTitle : String) : SessionState × Bool :=
  if st.msgCount < 2 then (st, false)
  else if titleGuard st.title then
    if newTitle ≠ "" ∧ newTitle ≠ st.title then ({ st with title := newTitle }, true)
    else (st, false)
  else (st, false)

/-- One step of a sequence of title-update invocations: apply the update
and count whether it overwrote the title. -/
def titleStep (p : SessionState × Nat) (g : String) : SessionState × Nat :=
  ((updateSessionTitle p.1 g).1, p.2 + if (updateSessionTitle p.1 g).2 then 1 else 0)

/-- A sequence of title-update invocations on the same session, with
`gens` the successive outputs of the title synthesizer; counts how many
invocations overwrote the title. -/
def runTitleUpdates (st : SessionState) (gens : List String) : SessionState × Nat :=
  gens.foldl titleStep (st, 0)

/-! ## Profile completion
(`app/services/firebase_service.py`, `_check_profile_completion`
lines 335-350, `create_simple_user_profile` lines 225-269,
`update_simple_user_profile` lines 302-333) -/

/-- The four fields `_check_profile_completion` requires. -/
def requiredForComplete : List String :=
  ["location", "farm_size", "soil_type", "irrigation_type"]

/-- One field test of `_check_profile_completion`:
`value is not None and str(value).strip() != ""`. -/
def fieldFilled (v : Value) : Bool :=
  !v.isNull && !(trimChars (pyStr v) == "")

/-- `_check_profile_completion`: all four required fields pass
`fieldFilled` (a missing key reads as `None` through `dict.get`). -/
def checkProfileCompletion (pd : List (String × Value)) : Bool :=
  requiredForComplete.all (fun f => fieldFilled ((List.lookup f pd).getD .vNull))

/-- The document `create_simple_user_profile` writes (lines 244-258),
with `now` standing for `datetime.utcnow()`. -/
def createSimpleUserProfileDoc (uid : String) (pd : List (String × Value))
    (now : Value) : List (String × Value) :=
  [("uid", .vStr uid),
   ("full_name", (List.lookup "full_name" pd).getD (.vStr "")),
   ("email", (List.lookup "email" pd).getD (.vStr "")),
   ("phone_number", (List.lookup "phone_number" pd).getD .vNull),
   ("location", (List.lookup "location" pd).getD .vNull),
   ("latitude", (List.lookup "latitude" pd).getD .vNull),
   ("longitude", (List.lookup "longitude" pd).getD .vNull),
   ("farm_size", (List.lookup "farm_size" pd).getD .vNull),
   ("soil_type", (List.lookup "soil_type" pd).getD .vNull),
   ("irrigation_type", (List.lookup "irrigation_type" pd).getD .vNull),
   ("created_at", now),
   ("updated_at", now),
   ("profile_complete", .vBool (checkProfileCompletion pd))]

/-- Python dictionary assignment `d[k] = v` on an insertion-ordered
association list: replace in place, else append. -/
def setKey : List (String × Value) → String → Value → List (String × Value)
  | [], k, v => [(k, v)]
  | (k0, v0) :: t, k, v =>
    if k0 = k then (k, v) :: t else (k0, v0) :: setKey t k v

/-- The partial-update payload `update_simple_user_profile` writes
(lines 317-325): the caller's fields plus `updated_at` and a
`profile_complete` flag recomputed from the payload itself. -/
def updateSimpleUserProfilePayload (ud : List (String × Value))
    (now : Value) : List (String × Value) :=
  let ud1 := setKey ud "updated_at" now
  setKey ud1 "profile_complete" (.vBool (checkProfileCompletion ud1))

/-! ## Concrete inputs used by the claims -/

/-- The spec's three-record history:
`[{"prediction":{"prediction":"rice"}}, {"prediction":{"prediction":"rice"}},
{"prediction":{"prediction":"wheat"}}]`. -/
def exThreeRecords : List Value :=
  [.vDict [("prediction", .vDict [("prediction", .vStr "rice")])],
   .vDict [("prediction", .vDict [("prediction", .vStr "rice")])],
   .vDict [("prediction", .vDict [("prediction", .vStr "wheat")])]]

/-- A stored record whose recommendation confidence is `250`, outside the
0-100 percentage range. -/
def overConfidenceRecord : Value :=
  .vDict [("recommendations", .vList
    [.vDict [("crop_name", .vStr "rice"), ("confidence_score", .vNum 250)]])]

/-- A well-formed stored record of the `/crops/recommend` shape with an
in-range percentage confidence. -/
def recShapeRecord : Value :=
  .vDict [("recommendations", .vList
    [.vDict [("crop_name", .vStr "rice"), ("confidence_score", .vNum 93)]])]

/-- The spec scenario's flat legacy profile:
`{"location": "Pune, Maharashtra", "farm_size": 3.5}`. -/
def flatLegacyUser : Value :=
  .vDict [("location", .vStr "Pune, Maharashtra"), ("farm_size", .vNum (7/2))]

/-- The spec scenario's enhanced profile expressing the same facts
nested: `farm_profile.location` district/state and
`farm_profile.farm_details.total_area`. -/
def enhancedNestedProfile : Value :=
  .vDict [("farm_profile", .vDict
    [("location", .vDict [("district", .vStr "Pune"), ("state", .vStr "Maharashtra")]),
     ("farm_details", .vDict [("total_area", .vNum (7/2))])])]

/-! ## Helper lemmas -/

/-- `roundTo4` fixes `0`. -/
theorem roundTo4_zero : roundTo4 0 = 0 := by
  simp [roundTo4]

/-- A raising `get` chain succeeds exactly when the safe walk reaches the
same value. -/
theorem pyChain_ok_iff : ∀ (ks : List String) (v w : Value),
    pyChain v ks = .ok w ↔ safeChain v ks = some w
  | [], v, w => by simp [pyChain, safeChain]
  | [k], v, w => by cases v <;> simp [pyChain, safeChain]
  | k :: k2 :: ks, v, w => by
    cases v <;> simp [pyChain, safeChain]
    exact pyChain_ok_iff (k2 :: ks) _ w

/-- Each invocation either leaves the session unchanged and reports no
overwrite, or (only when the overwrite condition held) replaces the title
with the generated one and reports an overwrite. -/
theorem updateSessionTitle_cases (st : SessionState) (g : String) :
    updateSessionTitle st g = (st, false) ∨
      (updateSessionTitle st g = ({ st with title := g }, true) ∧
        titleGuard st.title = true) := by
  unfold updateSessionTitle
  split
  · exact Or.inl rfl
  · split
    · split
      · exact Or.inr ⟨rfl, by assumption⟩
      · exact Or.inl rfl
    · exact Or.inl rfl

/-- Once the title no longer matches the overwrite condition, a single
invocation does nothing. -/
theorem updateSessionTitle_guard_false (st : SessionState) (g : String)
    (h : titleGuard st.title = false) :
    updateSessionTitle st g = (st, false) := by
  unfold updateSessionTitle
  split
  · rfl
  · simp [h]

/-- Once the title no longer matches the overwrite condition, any
sequence of invocations does nothing. -/
theorem foldl_titleStep_guard_false :
    ∀ (gens : List String) (st : SessionState) (n : Nat),
      titleGuard st.title = false →
      gens.foldl titleStep (st, n) = (st, n)
  | [], _, _, _ => rfl
  | g :: gens, st, n, h => by
    rw [List.foldl_cons]
    have hstep : titleStep (st, n) g = (st, n) := by
      simp [titleStep, updateSessionTitle_guard_false st g h]
    rw [hstep]
    exact foldl_titleStep_guard_false gens st n h

/-- The overwrite count grows by at most one over any invocation sequence
whose generated titles never themselves match the overwrite condition. -/
theorem foldl_titleStep_le :
    ∀ (gens : List String) (st : SessionState) (n : Nat),
      (∀ g ∈ gens, titleGuard g = false) →
      (gens.foldl titleStep (st, n)).2 ≤ n + 1
  | [], st, n, _ => by simp
  | g :: gens, st, n, h => by
    rw [List.foldl_cons]
    rcases updateSessionTitle_cases st g with hu | ⟨hu, _⟩
    · have hstep : titleStep (st, n) g = (st, n) := by simp [titleStep, hu]
      rw [hstep]
      exact foldl_titleStep_le gens st n (fun x hx => h x (List.mem_cons_of_mem g hx))
    · have hstep : titleStep (st, n) g = ({ st with title := g }, n + 1) := by
        simp [titleStep, hu]
      rw [hstep]
      have hg : titleGuard g = false := h g (List.mem_cons_self g gens)
      rw [foldl_titleStep_guard_false gens _ (n + 1) hg]

/-! ## Claim theorems: C7, C8, C9 -/

/-- Claim C7 counterexample: automatic session-title replacement is not
idempotent as claimed.  Starting from the placeholder title, a first
invocation whose generated title is the synthesizer's own fallback string
"Chat Session" succeeds, and because the overwrite condition is a
substring test rather than a placeholder test, a second invocation
overwrites again — two changes on the same session. -/
theorem c7_title_counterexample :
    ¬ (∀ (st : SessionState) (gens : List String),
        (runTitleUpdates st gens).2 ≤ 1) := by
  intro h
  have h2 := h ⟨"Chat Session 2025-09-25 10:30", 2⟩
    ["Chat Session", "Wheat Disease Help"]
  revert h2
  decide

/-- Claim C7 (amended): the operation overwrites a title only while it is
empty, contains, or starts with the substring "Chat Session" (the
timestamp placeholder does); provided no generated title itself matches
that condition, any sequence of invocations changes the title at most
once, and once the title no longer matches the condition every further
invocation leaves the session unchanged. -/
theorem c7_title_replacement (st : SessionState) (gens : List String)
    (hg : ∀ g ∈ gens, titleGuard g = false) :
    (runTitleUpdates st gens).2 ≤ 1 ∧
      (titleGuard st.title = false → runTitleUpdates st gens = (st, 0)) := by
  constructor
  · simpa using foldl_titleStep_le gens st 0 hg
  · intro h
    exact foldl_titleStep_guard_false gens st 0 h

/-- Witness for C7: a placeholder-titled session and one ordinary
generated title satisfy the hypothesis, and the theorem applies. -/
theorem c7_title_replacement_witness :
    (runTitleUpdates ⟨"Chat Session 2025-09-25 10:30", 2⟩
        ["Wheat Disease Help"]).2 ≤ 1 ∧
      (titleGuard (SessionState.mk "Chat Session 2025-09-25 10:30" 2).title = false →
        runTitleUpdates ⟨"Chat Session 2025-09-25 10:30", 2⟩ ["Wheat Disease Help"] =
          (⟨"Chat Session 2025-09-25 10:30", 2⟩, 0)) :=
  c7_title_replacement ⟨"Chat Session 2025-09-25 10:30", 2⟩ ["Wheat Disease Help"]
    (by decide)

/-- Claim C8 (code bug): the flat-shape path and the nested-shape path of
the context assembly do *not* agree on the location fact.  For the spec's
scenario profiles, the flat path carries "Pune, Maharashtra" into the
formatted context, while the enhanced path nests the same fact under
`farm_profile`, where `_format_user_context` (which reads only a
top-level `location`/`farm_details`) never finds it; the farm size is
dropped by both paths. -/
theorem c8_flat_nested_location_disagree :
    formatLocationPart (buildBasicContext "u1" flatLegacyUser) =
      some "Location: Pune, Maharashtra" ∧
    formatLocationPart (buildEnhancedAiContext enhancedNestedProfile) = none ∧
    formatLocationPart (buildBasicContext "u1" flatLegacyUser) ≠
      formatLocationPart (buildEnhancedAiContext enhancedNestedProfile) ∧
    formatFarmSizePart (buildBasicContext "u1" flatLegacyUser) = none ∧
    formatFarmSizePart (buildEnhancedAiContext enhancedNestedProfile) = none := by
  refine ⟨by decide, by decide, ?_, by decide, by decide⟩
  decide

/-- Claim C9: with an initialized LLM client, the session-title
synthesizer returns the literal "New Chat Session" on an empty message
list, issuing no completion request at all. -/
theorem c9_empty_messages_title (llm : String → Except String String) :
    generateSessionTitle true llm [] = (.ok "New Chat Session", 0) := rfl

/-! ## Claim theorems: C3 -/

/-- Claim C3: whenever the scorer runs to completion on a profile
mapping, its quality score is the additive fixed-weight checklist sum
(full name +2, location state +2, farm area +1, soil type +2, primary
crops +2, experience level +1) capped at 10, the sum itself never exceeds
10, and `personalization_active` holds exactly when the score is strictly
greater than 4; the empty profile scores 0 with the flag off. -/
theorem c3_context_quality_score (p : Value) (r : AIContextScore)
    (h : getAiContextScore p = .ok r) :
    r.context_quality_score = min (checklistScore p) 10 ∧
      checklistScore p ≤ 10 ∧
      (r.personalization_active = true ↔ 4 < r.context_quality_score) ∧
      getAiContextScore (.vDict []) = .ok ⟨false, 0⟩ := by
  unfold getAiContextScore at h
  cases h1 : pyChain p ["personal_info", "full_name"] with
  | error e => rw [h1] at h; exact absurd h (by simp)
  | ok v1 =>
  cases h2 : pyChain p ["farm_profile", "location", "state"] with
  | error e => rw [h1, h2] at h; exact absurd h (by simp)
  | ok v2 =>
  cases h3 : pyChain p ["farm_profile", "farm_details", "total_area"] with
  | error e => rw [h1, h2, h3] at h; exact absurd h (by simp)
  | ok v3 =>
  cases h4 : pyChain p ["farm_profile", "soil_information", "primary_soil_type"] with
  | error e => rw [h1, h2, h3, h4] at h; exact absurd h (by simp)
  | ok v4 =>
  cases h5 : pyChain p ["farming_profile", "primary_crops"] with
  | error e => rw [h1, h2, h3, h4, h5] at h; exact absurd h (by simp)
  | ok v5 =>
  cases h6 : pyChain p ["farming_profile", "experience_level"] with
  | error e => rw [h1, h2, h3, h4, h5, h6] at h; exact absurd h (by simp)
  | ok v6 =>
  rw [h1, h2, h3, h4, h5, h6] at h
  simp only [Except.ok.injEq] at h
  subst h
  have hcheck : checklistScore p =
      (if v1.truthy then 2 else 0) + (if v2.truthy then 2 else 0) +
      (if v3.truthy then 1 else 0) + (if v4.truthy then 2 else 0) +
      (if v5.truthy then 2 else 0) + (if v6.truthy then 1 else 0) := by
    simp only [checklistScore, scoreChecklist, factPresent, List.map_cons,
      List.map_nil, List.sum_cons, List.sum_nil,
      (pyChain_ok_iff _ p v1).mp h1, (pyChain_ok_iff _ p v2).mp h2,
      (pyChain_ok_iff _ p v3).mp h3, (pyChain_ok_iff _ p v4).mp h4,
      (pyChain_ok_iff _ p v5).mp h5, (pyChain_ok_iff _ p v6).mp h6]
    omega
  refine ⟨by rw [hcheck], ?_, ?_, rfl⟩
  · rw [hcheck]
    split_ifs <;> omega
  · simp

/-- Witness for C3: the empty profile scores successfully, so the theorem
applies to it with its hypothesis discharged by evaluation. -/
theorem c3_context_quality_score_witness :
    (AIContextScore.mk false 0).context_quality_score =
        min (checklistScore (.vDict [])) 10 ∧
      checklistScore (.vDict []) ≤ 10 ∧
      ((AIContextScore.mk false 0).personalization_active = true ↔
        4 < (AIContextScore.mk false 0).context_quality_score) ∧
      getAiContextScore (.vDict []) = .ok ⟨false, 0⟩ :=
  c3_context_quality_score (.vDict []) ⟨false, 0⟩ rfl

/-! ## Claim theorems: C10 -/

/-- Setting a key stores its value. -/
theorem lookup_setKey_self :
    ∀ (l : List (String × Value)) (k : String) (v : Value),
      List.lookup k (setKey l k v) = some v
  | [], k, v => by simp [setKey]
  | (k0, v0) :: t, k, v => by
    by_cases hk : k0 = k
    · subst hk
      simp [setKey]
    · simp only [setKey, if_neg hk, List.lookup_cons,
        beq_false_of_ne (fun h => hk h.symm)]
      exact lookup_setKey_self t k v

/-- Setting a key leaves other keys alone. -/
theorem lookup_setKey_ne :
    ∀ (l : List (String × Value)) (k k' : String) (v : Value), k' ≠ k →
      List.lookup k' (setKey l k v) = List.lookup k' l
  | [], k, k', v, h => by
    simp [setKey, List.lookup_cons, beq_false_of_ne h]
  | (k0, v0) :: t, k, k', v, h => by
    by_cases hk : k0 = k
    · subst hk
      rw [show setKey ((k0, v0) :: t) k0 v = (k0, v) :: t from by simp [setKey]]
      simp only [List.lookup_cons, beq_false_of_ne h]
    · simp only [setKey, if_neg hk, List.lookup_cons]
      by_cases hk' : k' = k0
      · subst hk'
        simp
      · simp only [beq_false_of_ne hk']
        exact lookup_setKey_ne t k k' v h

/-- Setting a key outside the required-field list does not change the
completion check. -/
theorem checkProfileCompletion_setKey (l : List (String × Value))
    (k : String) (v : Value) (hk : k ∉ requiredForComplete) :
    checkProfileCompletion (setKey l k v) = checkProfileCompletion l := by
  have hl : ∀ f ∈ requiredForComplete,
      List.lookup f (setKey l k v) = List.lookup f l :=
    fun f hf => lookup_setKey_ne l k f v (fun h => hk (h ▸ hf))
  unfold checkProfileCompletion requiredForComplete
  simp only [List.all_cons, List.all_nil]
  rw [hl "location" (by decide), hl "farm_size" (by decide),
    hl "soil_type" (by decide), hl "irrigation_type" (by decide)]

/-- Claim C10: the profile-completion flag is true exactly when all four
of location, farm size, soil type and irrigation type are present, not
`None`, and not blank after string conversion and whitespace stripping;
and both the creation document and the update payload store the flag
consistently with the field values they write. -/
theorem c10_profile_completion (pd ud : List (String × Value))
    (uid : String) (now now2 : Value) :
    (checkProfileCompletion pd = true ↔
      ∀ f ∈ requiredForComplete,
        ((List.lookup f pd).getD .vNull).isNull = false ∧
          trimChars (pyStr ((List.lookup f pd).getD .vNull)) ≠ "") ∧
      List.lookup "profile_complete" (createSimpleUserProfileDoc uid pd now) =
        some (.vBool (checkProfileCompletion
          (createSimpleUserProfileDoc uid pd now))) ∧
      List.lookup "profile_complete" (updateSimpleUserProfilePayload ud now2) =
        some (.vBool (checkProfileCompletion
          (updateSimpleUserProfilePayload ud now2))) := by
  refine ⟨?_, ?_, ?_⟩
  · simp only [checkProfileCompletion, fieldFilled, List.all_eq_true,
      Bool.and_eq_true, Bool.not_eq_true', beq_eq_false_iff_ne]
  · show _ = some (.vBool (checkProfileCompletion
      (createSimpleUserProfileDoc uid pd now)))
    have hdoc : checkProfileCompletion (createSimpleUserProfileDoc uid pd now) =
        checkProfileCompletion pd := by
      unfold checkProfileCompletion requiredForComplete createSimpleUserProfileDoc
      simp [List.lookup_cons]
    rw [hdoc]
    unfold createSimpleUserProfileDoc
    simp [List.lookup_cons]
  · unfold updateSimpleUserProfilePayload
    rw [lookup_setKey_self,
      checkProfileCompletion_setKey _ "profile_complete" _ (by decide)]

/-! ## Claim theorems: C1, C2, C6 -/

/-- Claim C1: the normalizer resolves every raw record by the first
matching rule of the spec's resolution order — recommendations list,
then prediction field (mapping sub-fields in order, else plain string),
then top-level crop name, then `input_data` crop — with the
`("Unknown", 0.0)` default when nothing matches. -/
theorem c1_first_match_resolution (r : Value) :
    normalizeRecord r = specResolve r := by
  unfold normalizeRecord normalizeRaw specResolve resolutionRules
  cases h1 : ruleRecommendations r with
  | some x => simp [List.findSome?_cons, h1]
  | none =>
    cases h2 : rulePrediction r with
    | some x => simp [List.findSome?_cons, h1, h2]
    | none =>
      cases h3 : ruleCropName r with
      | some x => simp [List.findSome?_cons, h1, h2, h3]
      | none =>
        cases h4 : ruleInputData r with
        | some x => simp [List.findSome?_cons, h1, h2, h3, h4]
        | none =>
          simp [List.findSome?_cons, h1, h2, h3, h4, roundTo4_zero]

/-- Claim C2 counterexample: a stored record whose recommendation
confidence is `250` normalizes to confidence `2.5`, outside `[0, 1]` —
the raw value is divided by 100 but never clamped, so the claim's
"for every raw prediction record" range statement fails. -/
theorem c2_confidence_counterexample :
    ¬ (∀ r : Value,
        0 ≤ (normalizeRecord r).confidence ∧ (normalizeRecord r).confidence ≤ 1) := by
  intro h
  have h2 := (h overConfidenceRecord).2
  have hraw : normalizeRaw overConfidenceRecord = ("rice", 250) := by
    simp [normalizeRaw, ruleRecommendations, overConfidenceRecord, Value.lookup?,
      List.lookup, nameOf?, Value.asNum?]
  have he : (normalizeRecord overConfidenceRecord).confidence = 5 / 2 := by
    simp only [normalizeRecord, hraw]
    have h25 : (250 : ℚ) / 100 * 10000 = ((25000 : ℤ) : ℚ) := by norm_num
    rw [roundTo4, h25, round_intCast]
    norm_num
  rw [he] at h2
  norm_num at h2

/-- Rounding to 4 decimal places keeps a value of `[0, 1]` in `[0, 1]`. -/
theorem roundTo4_bounds (q : ℚ) (h0 : 0 ≤ q) (h1 : q ≤ 1) :
    0 ≤ roundTo4 q ∧ roundTo4 q ≤ 1 := by
  unfold roundTo4
  constructor
  · apply div_nonneg _ (by norm_num)
    have hr : (0 : ℤ) ≤ round (q * 10000) := by
      rw [round_eq]
      apply Int.floor_nonneg.mpr
      linarith
    exact_mod_cast hr
  · rw [div_le_one (by norm_num)]
    have hr : round (q * 10000) ≤ 10000 := by
      rw [round_eq]
      have hhalf : (⌊(1 / 2 : ℚ)⌋ : ℤ) = 0 := by
        rw [Int.floor_eq_zero_iff]
        constructor <;> norm_num
      have hle : (⌊q * 10000 + 1 / 2⌋ : ℤ) ≤ ⌊((10000 : ℤ) : ℚ) + 1 / 2⌋ :=
        Int.floor_le_floor (by push_cast; linarith)
      rw [Int.floor_int_add, hhalf] at hle
      simpa using hle
    exact_mod_cast hr

/-- Claim C2 (amended): for every record whose extracted raw confidence
lies in the 0-100 percentage range — as every value the backend writes
does — the normalized confidence is the raw percentage divided by 100,
rounded to 4 decimal places, and lies in `[0, 1]`. -/
theorem c2_confidence_in_range (r : Value)
    (h0 : 0 ≤ (normalizeRaw r).2) (h100 : (normalizeRaw r).2 ≤ 100) :
    (normalizeRecord r).confidence = roundTo4 ((normalizeRaw r).2 / 100) ∧
      0 ≤ (normalizeRecord r).confidence ∧
      (normalizeRecord r).confidence ≤ 1 := by
  refine ⟨rfl, ?_⟩
  have hq0 : 0 ≤ (normalizeRaw r).2 / 100 := by positivity
  have hq1 : (normalizeRaw r).2 / 100 ≤ 1 := by
    rw [div_le_one (by norm_num)]
    linarith
  exact roundTo4_bounds _ hq0 hq1

/-- Witness for C2: the well-formed `/crops/recommend`-shaped record with
confidence 93 satisfies both range hypotheses and the theorem applies. -/
theorem c2_confidence_in_range_witness :
    0 ≤ (normalizeRaw recShapeRecord).2 ∧ (normalizeRaw recShapeRecord).2 ≤ 100 ∧
      ((normalizeRecord recShapeRecord).confidence =
          roundTo4 ((normalizeRaw recShapeRecord).2 / 100) ∧
        0 ≤ (normalizeRecord recShapeRecord).confidence ∧
        (normalizeRecord recShapeRecord).confidence ≤ 1) := by
  have hraw : normalizeRaw recShapeRecord = ("rice", 93) := by
    simp [normalizeRaw, ruleRecommendations, recShapeRecord, Value.lookup?,
      List.lookup, nameOf?, Value.asNum?]
  have h0 : 0 ≤ (normalizeRaw recShapeRecord).2 := by
    rw [hraw]
    norm_num
  have h100 : (normalizeRaw recShapeRecord).2 ≤ 100 := by
    rw [hraw]
    norm_num
  exact ⟨h0, h100, c2_confidence_in_range recShapeRecord h0 h100⟩

/-- A usable crop name is never the empty string. -/
theorem nameOf?_ne_empty (v : Value) (n : String) (h : nameOf? v = some n) :
    n ≠ "" := by
  cases v with
  | vStr s =>
    by_cases hs : s = ""
    · simp [nameOf?, hs] at h
    · simp only [nameOf?, if_neg hs, Option.some.injEq] at h
      subst h
      exact hs
  | vNull => simp [nameOf?] at h
  | vBool b => simp [nameOf?] at h
  | vNum q => simp [nameOf?] at h
  | vList xs => simp [nameOf?] at h
  | vDict fs => simp [nameOf?] at h

/-- A name read through `Option.bind nameOf?` is never empty. -/
theorem bindName_ne_empty (o : Option Value) (n : String)
    (h : o.bind nameOf? = some n) : n ≠ "" := by
  cases o with
  | none => simp at h
  | some v => exact nameOf?_ne_empty v n (by simpa using h)

/-- The name chosen by the ordered `prediction`/`crop_name`/`crop`
sub-field fallback is never empty. -/
theorem orElse3_name_ne_empty (a b c : Option Value) (n : String)
    (h : (a.bind nameOf?).orElse
      (fun _ => (b.bind nameOf?).orElse (fun _ => c.bind nameOf?)) = some n) :
    n ≠ "" := by
  cases ha : a.bind nameOf? with
  | some n1 =>
    rw [ha] at h
    simp only [Option.orElse] at h
    have hn : n1 = n := by simpa using h
    subst hn
    exact bindName_ne_empty a _ ha
  | none =>
    rw [ha] at h
    simp only [Option.orElse] at h
    cases hb : b.bind nameOf? with
    | some n2 =>
      rw [hb] at h
      simp only at h
      have hn : n2 = n := by simpa using h
      subst hn
      exact bindName_ne_empty b _ hb
    | none =>
      rw [hb] at h
      simp only at h
      exact bindName_ne_empty c n h

/-- Rule 1 never yields an empty crop name. -/
theorem ruleRecommendations_name_ne (r : Value) (n : String) (q : ℚ)
    (h : ruleRecommendations r = some (n, q)) : n ≠ "" := by
  unfold ruleRecommendations at h
  split at h
  · split at h
    · rename_i heq
      simp only [Option.some.injEq, Prod.mk.injEq] at h
      obtain ⟨rfl, -⟩ := h
      exact bindName_ne_empty _ _ heq
    · simp at h
  · simp at h

/-- Rule 2 never yields an empty crop name. -/
theorem rulePrediction_name_ne (r : Value) (n : String) (q : ℚ)
    (h : rulePrediction r = some (n, q)) : n ≠ "" := by
  unfold rulePrediction at h
  split at h
  · split at h
    · rename_i heq
      simp only [Option.some.injEq, Prod.mk.injEq] at h
      obtain ⟨rfl, -⟩ := h
      exact orElse3_name_ne_empty _ _ _ _ heq
    · simp at h
  · rename_i s
    split at h
    · simp at h
    · rename_i hs
      simp only [Option.some.injEq, Prod.mk.injEq] at h
      obtain ⟨rfl, -⟩ := h
      exact hs
  · simp at h

/-- Rule 3 never yields an empty crop name. -/
theorem ruleCropName_name_ne (r : Value) (n : String) (q : ℚ)
    (h : ruleCropName r = some (n, q)) : n ≠ "" := by
  unfold ruleCropName at h
  split at h
  · rename_i heq
    simp only [Option.some.injEq, Prod.mk.injEq] at h
    obtain ⟨rfl, -⟩ := h
    exact bindName_ne_empty _ _ heq
  · simp at h

/-- Rule 4 never yields an empty crop name. -/
theorem ruleInputData_name_ne (r : Value) (n : String) (q : ℚ)
    (h : ruleInputData r = some (n, q)) : n ≠ "" := by
  unfold ruleInputData at h
  split at h
  · split at h
    · rename_i heq
      simp only [Option.some.injEq, Prod.mk.injEq] at h
      obtain ⟨rfl, -⟩ := h
      exact bindName_ne_empty _ _ heq
    · simp at h
  · simp at h

/-- The cascade never yields an empty crop name. -/
theorem normalizeRaw_name_ne (r : Value) : (normalizeRaw r).1 ≠ "" := by
  unfold normalizeRaw
  cases h1 : ruleRecommendations r with
  | some x => exact ruleRecommendations_name_ne r x.1 x.2 (by rw [h1])
  | none =>
    cases h2 : rulePrediction r with
    | some x => exact rulePrediction_name_ne r x.1 x.2 (by rw [h2])
    | none =>
      cases h3 : ruleCropName r with
      | some x => exact ruleCropName_name_ne r x.1 x.2 (by rw [h3])
      | none =>
        cases h4 : ruleInputData r with
        | some x => exact ruleInputData_name_ne r x.1 x.2 (by rw [h4])
        | none => simp

/-- Claim C6: normalization is total over arbitrary untyped input — the
embedding is a total function in which every wrong-typed step falls
through to the next rule — its crop name is never empty, the no-match
default is `("Unknown", 0.0)`, and aggregation counts every record of a
history, so one malformed record never aborts aggregation. -/
theorem c6_normalization_total (r : Value) (history : List Value) :
    (normalizeRecord r).crop_name ≠ "" ∧
      ((∀ rule ∈ resolutionRules, rule r = none) →
        normalizeRecord r = ⟨"Unknown", 0⟩) ∧
      (aggregate history).total_count = history.length := by
  refine ⟨normalizeRaw_name_ne r, ?_, rfl⟩
  intro hall
  have h1 := hall ruleRecommendations (by simp [resolutionRules])
  have h2 := hall rulePrediction (by simp [resolutionRules])
  have h3 := hall ruleCropName (by simp [resolutionRules])
  have h4 := hall ruleInputData (by simp [resolutionRules])
  simp [normalizeRecord, normalizeRaw, h1, h2, h3, h4, roundTo4_zero]

/-- Witness for C6: the empty record matches no rule and resolves to the
`("Unknown", 0.0)` default via the theorem. -/
theorem c6_normalization_total_witness :
    normalizeRecord (Value.vDict []) = ⟨"Unknown", 0⟩ :=
  (c6_normalization_total (Value.vDict []) []).2.1
    (by
      intro rule hr
      simp only [resolutionRules, List.mem_cons, List.not_mem_nil, or_false] at hr
      rcases hr with rfl | rfl | rfl | rfl <;> rfl)

/-! ## Claim theorems: C4 -/

/-- First-occurrence deduplication yields a sublist of the input. -/
theorem dedupFirst_sublist (l : List String) : List.Sublist (dedupFirst l) l := by
  induction l using dedupFirst.induct with
  | case1 => simp [dedupFirst]
  | case2 n t ih =>
    simp only [dedupFirst]
    exact (ih.trans (List.filter_sublist t)).cons₂ n

/-- Every element of the input survives first-occurrence
deduplication. -/
theorem mem_dedupFirst (l : List String) (a : String) :
    a ∈ l → a ∈ dedupFirst l := by
  induction l using dedupFirst.induct with
  | case1 => simp
  | case2 n t ih =>
    intro h
    simp only [dedupFirst]
    rcases List.mem_cons.mp h with rfl | ht
    · exact List.mem_cons_self _ _
    · by_cases han : a = n
      · subst han
        exact List.mem_cons_self _ _
      · exact List.mem_cons_of_mem _
          (ih (List.mem_filter.mpr ⟨ht, by simpa using han⟩))

/-- First-occurrence deduplication yields a duplicate-free list. -/
theorem nodup_dedupFirst (l : List String) : (dedupFirst l).Nodup := by
  induction l using dedupFirst.induct with
  | case1 => simp [dedupFirst]
  | case2 n t ih =>
    simp only [dedupFirst]
    refine List.nodup_cons.mpr ⟨?_, ih⟩
    intro hmem
    have : n ∈ t.filter (fun m => decide (m ≠ n)) :=
      (dedupFirst_sublist _).subset hmem
    simpa using (List.mem_filter.mp this).2

/-- The collection walk equals first-occurrence deduplication of the
not-yet-seen names truncated to the remaining capacity. -/
theorem recentAux_eq : ∀ (ns acc : List String), acc.length ≤ 3 →
    recentAux acc ns =
      acc ++ (dedupFirst (ns.filter (fun m => decide (m ∉ acc)))).take (3 - acc.length)
  | [], acc, _ => by simp [recentAux, dedupFirst]
  | n :: ns, acc, h => by
    rw [recentAux]
    by_cases h3 : 3 ≤ acc.length
    · rw [if_pos h3]
      have hlen : acc.length = 3 := le_antisymm h h3
      rw [hlen]
      simp
    · rw [if_neg h3]
      by_cases hmem : n ∈ acc
      · rw [if_pos hmem]
        have hf : List.filter (fun m => decide (m ∉ acc)) (n :: ns) =
            List.filter (fun m => decide (m ∉ acc)) ns := by
          simp [List.filter_cons, hmem]
        rw [hf]
        exact recentAux_eq ns acc h
      · rw [if_neg hmem]
        have hlen : (acc ++ [n]).length ≤ 3 := by
          simp only [List.length_append, List.length_singleton]
          omega
        rw [recentAux_eq ns (acc ++ [n]) hlen]
        have hf : List.filter (fun m => decide (m ∉ acc)) (n :: ns) =
            n :: List.filter (fun m => decide (m ∉ acc)) ns := by
          simp [List.filter_cons, hmem]
        rw [hf]
        simp only [dedupFirst]
        have htake : 3 - acc.length = (3 - (acc ++ [n]).length) + 1 := by
          simp only [List.length_append, List.length_singleton]
          omega
        rw [htake, List.take_succ_cons]
        have hff : (List.filter (fun m => decide (m ∉ acc)) ns).filter
              (fun m => decide (m ≠ n)) =
            ns.filter (fun m => decide (m ∉ acc ++ [n])) := by
          rw [List.filter_filter]
          refine List.filter_congr (fun m _ => ?_)
          by_cases h1 : m ∈ acc <;> by_cases h2 : m = n <;>
            simp [h1, h2, List.mem_append]
        rw [hff]
        simp [List.append_assoc]

/-- Claim C4: for every input history, the aggregated
`recent_unique_crops` list has at most 3 entries, no duplicates, is a
sublist of the normalized name sequence (so first-occurrence order is
preserved without re-ordering), and equals the first three first-occurrence
names. -/
theorem c4_recent_unique_crops (history : List Value) :
    ((aggregate history).recent_unique_crops).length ≤ 3 ∧
      ((aggregate history).recent_unique_crops).Nodup ∧
      ((aggregate history).recent_unique_crops).Sublist (historyNames history) ∧
      (aggregate history).recent_unique_crops =
        (dedupFirst (historyNames history)).take 3 := by
  have hr : (aggregate history).recent_unique_crops =
      (dedupFirst (historyNames history)).take 3 := by
    show recentUnique (historyNames history) = _
    unfold recentUnique
    rw [recentAux_eq (historyNames history) [] (by simp)]
    simp
  refine ⟨?_, ?_, ?_, hr⟩
  · rw [hr]
    exact List.length_take_le 3 _
  · rw [hr]
    exact (nodup_dedupFirst _).sublist (List.take_sublist _ _)
  · rw [hr]
    exact (List.take_sublist _ _).trans (dedupFirst_sublist _)

/-! ## Claim theorems: C5 -/

/-- The frequency table is empty exactly for an empty name list. -/
theorem freqTable_eq_nil_iff (ns : List String) :
    freqTable ns = [] ↔ ns = [] := by
  cases ns <;> simp [freqTable]

/-- The keys of the frequency table are the names in first-occurrence
order. -/
theorem freqTable_keys (ns : List String) :
    (freqTable ns).map Prod.fst = dedupFirst ns := by
  induction ns using freqTable.induct with
  | case1 => simp [freqTable, dedupFirst]
  | case2 n t ih =>
    simp only [freqTable, dedupFirst, List.map_cons]
    rw [ih]

/-- Every table entry carries the total multiplicity of its name. -/
theorem freqTable_counts (ns : List String) :
    ∀ e ∈ freqTable ns, e.2 = ns.count e.1 := by
  induction ns using freqTable.induct with
  | case1 => simp [freqTable]
  | case2 n t ih =>
    intro e he
    simp only [freqTable, List.mem_cons] at he
    rcases he with rfl | he
    · simp only [List.count_cons_self]
      omega
    · have h2 := ih e he
      have hkey : e.1 ∈ (freqTable (t.filter (fun m => decide (m ≠ n)))).map Prod.fst :=
        List.mem_map_of_mem _ he
      rw [freqTable_keys] at hkey
      have hmem : e.1 ∈ t.filter (fun m => decide (m ≠ n)) :=
        (dedupFirst_sublist _).subset hkey
      have hne : e.1 ≠ n := by simpa using (List.mem_filter.mp hmem).2
      rw [h2, List.count_filter (by simpa using hne), List.count_cons_of_ne hne]

/-- `pickTop` yields an entry exactly when the table is non-empty. -/
theorem pickTop_eq_none_iff (tbl : List (String × Nat)) :
    pickTop tbl = none ↔ tbl = [] := by
  cases tbl <;> simp [pickTop]

/-- `pickTop` picks an entry of the table. -/
theorem pickTop_mem : ∀ (tbl : List (String × Nat)) (b : String × Nat),
    pickTop tbl = some b → b ∈ tbl
  | a :: t, b, h => by
    simp only [pickTop, Option.some.injEq] at h
    cases ht : pickTop t with
    | none =>
      rw [ht] at h
      simp only [pickBetter] at h
      subst h
      exact List.mem_cons_self _ _
    | some bt =>
      rw [ht] at h
      simp only [pickBetter] at h
      by_cases hgt : bt.2 > a.2
      · rw [if_pos hgt] at h
        subst h
        exact List.mem_cons_of_mem _ (pickTop_mem t _ ht)
      · rw [if_neg hgt] at h
        subst h
        exact List.mem_cons_self _ _

/-- The picked entry has the maximal count of the table. -/
theorem pickTop_max : ∀ (tbl : List (String × Nat)) (b : String × Nat),
    pickTop tbl = some b → ∀ e ∈ tbl, e.2 ≤ b.2
  | a :: t, b, h => by
    intro e he
    simp only [pickTop, Option.some.injEq] at h
    cases ht : pickTop t with
    | none =>
      rw [ht] at h
      simp only [pickBetter] at h
      subst h
      have ht' : t = [] := (pickTop_eq_none_iff t).mp ht
      subst ht'
      have he' : e = a := by simpa using he
      rw [he']
    | some bt =>
      rw [ht] at h
      simp only [pickBetter] at h
      rcases List.mem_cons.mp he with rfl | het
      · by_cases hgt : bt.2 > e.2
        · rw [if_pos hgt] at h
          subst h
          exact le_of_lt hgt
        · rw [if_neg hgt] at h
          subst h
          exact le_refl _
      · have hmax := pickTop_max t bt ht e het
        by_cases hgt : bt.2 > a.2
        · rw [if_pos hgt] at h
          subst h
          exact hmax
        · rw [if_neg hgt] at h
          subst h
          omega

/-- On ties the picked entry is the one earlier in the table — the name
first encountered, by the table's insertion order. -/
theorem pickTop_first_tie : ∀ (tbl : List (String × Nat)) (b : String × Nat),
    (tbl.map Prod.fst).Nodup → pickTop tbl = some b →
    ∀ e ∈ tbl, e.2 = b.2 →
      (tbl.map Prod.fst).indexOf b.1 ≤ (tbl.map Prod.fst).indexOf e.1
  | a :: t, b, hnd, h => by
    intro e he htie
    simp only [pickTop, Option.some.injEq] at h
    rw [List.map_cons] at hnd
    obtain ⟨hna, hndt⟩ := List.nodup_cons.mp hnd
    cases ht : pickTop t with
    | none =>
      rw [ht] at h
      simp only [pickBetter] at h
      subst h
      simp [List.indexOf_cons_self]
    | some bt =>
      rw [ht] at h
      simp only [pickBetter] at h
      by_cases hgt : bt.2 > a.2
      · rw [if_pos hgt] at h
        subst h
        have hbt_mem : bt ∈ t := pickTop_mem t bt ht
        have hb1 : bt.1 ∈ t.map Prod.fst := List.mem_map_of_mem _ hbt_mem
        have hbna : a.1 ≠ bt.1 := fun hh => hna (hh ▸ hb1)
        rcases List.mem_cons.mp he with rfl | het
        · omega
        · have he1 : e.1 ∈ t.map Prod.fst := List.mem_map_of_mem _ het
          have hena : a.1 ≠ e.1 := fun hh => hna (hh ▸ he1)
          simp only [List.map_cons, List.indexOf_cons_ne _ hbna,
            List.indexOf_cons_ne _ hena]
          have := pickTop_first_tie t bt hndt ht e het htie
          omega
      · rw [if_neg hgt] at h
        subst h
        simp [List.indexOf_cons_self]

/-- Claim C5: the aggregator's `top_crop` is the mode of the
non-"Unknown" normalized crop names — it is absent exactly when there are
none, it is one of them, no name occurs more often, and a name occurring
equally often first appears no earlier in the reverse-chronological
input; in particular the spec's `rice, rice, wheat` history yields
`"rice"`. -/
theorem c5_top_crop_mode (history : List Value) :
    ((aggregate history).top_crop = none ↔ nonUnknownNames history = []) ∧
      (∀ t, (aggregate history).top_crop = some t →
        t ∈ nonUnknownNames history ∧
          ∀ n ∈ nonUnknownNames history,
            (nonUnknownNames history).count n ≤
                (nonUnknownNames history).count t ∧
              ((nonUnknownNames history).count n =
                  (nonUnknownNames history).count t →
                (dedupFirst (nonUnknownNames history)).indexOf t ≤
                  (dedupFirst (nonUnknownNames history)).indexOf n)) ∧
      (aggregate exThreeRecords).top_crop = some "rice" := by
  refine ⟨?_, ?_, ?_⟩
  · show (pickTop (freqTable (nonUnknownNames history))).map Prod.fst = none ↔ _
    rw [Option.map_eq_none', pickTop_eq_none_iff, freqTable_eq_nil_iff]
  · intro t ht
    have ht' : (pickTop (freqTable (nonUnknownNames history))).map Prod.fst = some t := ht
    rw [Option.map_eq_some'] at ht'
    obtain ⟨b, hpt, rfl⟩ := ht'
    have hbmem := pickTop_mem _ _ hpt
    have hbcount : b.2 = (nonUnknownNames history).count b.1 :=
      freqTable_counts _ b hbmem
    have hkeys := freqTable_keys (nonUnknownNames history)
    have hbns : b.1 ∈ nonUnknownNames history := by
      have hm : b.1 ∈ (freqTable (nonUnknownNames history)).map Prod.fst :=
        List.mem_map_of_mem _ hbmem
      rw [hkeys] at hm
      exact (dedupFirst_sublist _).subset hm
    refine ⟨hbns, ?_⟩
    intro n hn
    have hnkeys : n ∈ (freqTable (nonUnknownNames history)).map Prod.fst := by
      rw [hkeys]
      exact mem_dedupFirst _ n hn
    obtain ⟨e, hemem, he1⟩ := List.mem_map.mp hnkeys
    have hecount : e.2 = (nonUnknownNames history).count e.1 :=
      freqTable_counts _ e hemem
    have hmax := pickTop_max _ _ hpt e hemem
    constructor
    · rw [← he1, ← hecount, ← hbcount]
      exact hmax
    · intro htie
      have hnodup : ((freqTable (nonUnknownNames history)).map Prod.fst).Nodup := by
        rw [hkeys]
        exact nodup_dedupFirst _
      have h2 : e.2 = b.2 := by
        rw [hecount, hbcount, he1]
        exact htie
      have hidx := pickTop_first_tie _ _ hnodup hpt e hemem h2
      rw [hkeys, he1] at hidx
      exact hidx
  · show (pickTop (freqTable (nonUnknownNames exThreeRecords))).map Prod.fst =
      some "rice"
    have hns : nonUnknownNames exThreeRecords = ["rice", "rice", "wheat"] := by
      simp [nonUnknownNames, historyNames, exThreeRecords, normalizeRecord,
        normalizeRaw, ruleRecommendations, rulePrediction, Value.lookup?,
        List.lookup, nameOf?]
    rw [hns]
    simp [freqTable, pickTop, pickBetter, List.count_cons, List.count_nil,
      List.filter_cons, List.filter_nil]

/-- Witness for C5: the theorem's mode facts applied to the spec's
three-record history. -/
theorem c5_top_crop_mode_witness :
    "rice" ∈ nonUnknownNames exThreeRecords ∧
      (nonUnknownNames exThreeRecords).count "wheat" ≤
        (nonUnknownNames exThreeRecords).count "rice" := by
  have h := c5_top_crop_mode exThreeRecords
  have h2 := h.2.1 "rice" h.2.2
  have hw : "wheat" ∈ nonUnknownNames exThreeRecords := by
    simp [nonUnknownNames, historyNames, exThreeRecords, normalizeRecord,
      normalizeRaw, ruleRecommendations, rulePrediction, Value.lookup?,
      List.lookup, nameOf?]
  exact ⟨h2.1, (h2.2 "wheat" hw).1⟩
